import Mathlib

/-!
Verification of the storage/caching engine of the joblib repository
(src/joblib/store.py and src/joblib/memory.py), as a shallow embedding.

Python strings are modelled as lists of characters; Python source-level
operations (split, join, rstrip, int parsing, percent-i rendering, list
slicing, readlines) are embedded faithfully.  Stateful store backends are
modelled by explicit state passing: the filesystem backend state is the
content of the per-function cache directory, the remote document-store
backend state is the set of versioned blobs of the per-function
collection.  Exceptions are modelled with Option and Except.
-/

/-- Python str values are modelled as lists of characters. -/
abbrev PyStr := List Char

/-- The whitespace test used by Python str.strip and int; mirrors the six
whitespace characters of the C locale. -/
def pyIsSpace (c : Char) : Bool :=
  c == ' ' || c == '\t' || c == '\n' || c == '\r' || c == '\x0b' || c == '\x0c'

/-- Embedding of Python str.rstrip with no argument: drop trailing
whitespace. -/
def rstrip (s : PyStr) : PyStr :=
  (s.reverse.dropWhile pyIsSpace).reverse

/-- Value of a decimal digit character, none when the character is not a
digit.  Used to embed Python int parsing. -/
def charDigit (c : Char) : Option Nat :=
  if '0' ≤ c && c ≤ '9' then some (c.toNat - 48) else none

/-- The decimal digit character for a value below ten. -/
def digitChar (d : Nat) : Char := Char.ofNat (48 + d)

/-- Value of a little-endian list of decimal digits. -/
def pyDigitsVal : List Nat → Nat
  | [] => 0
  | d :: ds => d + 10 * pyDigitsVal ds

/-- Parse a nonempty all-digit string into a natural number, as Python int
does after sign and whitespace handling; none models ValueError. -/
def parseDigits : PyStr → Option Nat
  | [] => none
  | c :: cs => ((c :: cs).mapM charDigit).map (fun ds => pyDigitsVal ds.reverse)

/-- Embedding of Python int applied to a string: strip whitespace on both
sides, accept one optional sign, then a nonempty digit string; none models
ValueError. -/
def pyInt (s : PyStr) : Option Int :=
  let t := rstrip (s.dropWhile pyIsSpace)
  if t.headD ' ' = '-' then (parseDigits t.tail).map (fun m => -(m : Int))
  else if t.headD ' ' = '+' then (parseDigits t.tail).map (fun m => (m : Int))
  else (parseDigits t).map (fun m => (m : Int))

/-- Decimal rendering of a natural number, most significant digit first,
with explicit fuel so that the kernel can evaluate it. -/
def renderNatAux : Nat → Nat → PyStr → PyStr
  | 0, _, acc => acc
  | fuel + 1, n, acc =>
    if n < 10 then digitChar n :: acc
    else renderNatAux fuel (n / 10) (digitChar (n % 10) :: acc)

/-- Decimal rendering of a natural number, as Python percent-i does. -/
def renderNat (n : Nat) : PyStr := renderNatAux (n + 1) n []

/-- Embedding of the Python percent-i conversion on an integer. -/
def renderInt : Int → PyStr
  | .ofNat n => renderNat n
  | .negSucc n => '-' :: renderNat (n + 1)

/-- The sentinel constant FIRST_LINE_TEXT of src/joblib/store.py line 24. -/
def FIRST_LINE_TEXT : PyStr := "# first line:".data

/-- Embedding of extract_first_line (src/joblib/store.py lines 26 to 36):
when the text starts with the sentinel, parse the integer after it on the
first line and return the remaining lines rejoined; otherwise return the
text unchanged with first line -1.  The result is none exactly when the
Python int call raises ValueError. -/
def extract_first_line (func_code : PyStr) : Option (PyStr × Int) :=
  if FIRST_LINE_TEXT.isPrefixOf func_code then
    let parts := func_code.splitOn '\n'
    (pyInt ((parts.headD []).drop FIRST_LINE_TEXT.length)).map
      (fun first_line => (List.intercalate ['\n'] parts.tail, first_line))
  else some (func_code, -1)

/-- The framing written by both backends in _save_func_code
(src/joblib/store.py lines 225 and 440): the sentinel, a space, the
rendered first line, a newline, then the verbatim source text. -/
def encode_func_code (func_code : PyStr) (first_line : Int) : PyStr :=
  FIRST_LINE_TEXT ++ ' ' :: renderInt first_line ++ '\n' :: func_code

theorem pyDigitsVal_eq_ofDigits (l : List Nat) : pyDigitsVal l = Nat.ofDigits 10 l := by
  induction l with
  | nil => rfl
  | cons d ds ih => simp [pyDigitsVal, Nat.ofDigits_cons, ih]

theorem charDigit_digitChar {d : Nat} (h : d < 10) : charDigit (digitChar d) = some d := by
  interval_cases d <;> rfl

theorem digitChar_not_special {d : Nat} (h : d < 10) :
    pyIsSpace (digitChar d) = false ∧ digitChar d ≠ '-' ∧ digitChar d ≠ '+' ∧
      digitChar d ≠ '\n' := by
  interval_cases d <;> exact ⟨rfl, by decide, by decide, by decide⟩

theorem renderNatAux_eq_digits (fuel : Nat) :
    ∀ n acc, 0 < n → n < fuel →
      renderNatAux fuel n acc = ((Nat.digits 10 n).reverse.map digitChar) ++ acc := by
  induction fuel with
  | zero => intro n acc _ h; omega
  | succ fuel ih =>
    intro n acc hn hlt
    by_cases hsmall : n < 10
    · have hdig : Nat.digits 10 n = [n] := by
        rw [Nat.digits_def' (by norm_num) hn, Nat.mod_eq_of_lt hsmall,
          Nat.div_eq_of_lt hsmall, Nat.digits_zero]
      simp [renderNatAux, hsmall, hdig]
    · have h10 : 10 ≤ n := le_of_not_lt hsmall
      have hdivpos : 0 < n / 10 := Nat.div_pos h10 (by norm_num)
      have hdivlt : n / 10 < fuel := by
        have : n / 10 < n := Nat.div_lt_self hn (by norm_num)
        omega
      have := ih (n / 10) (digitChar (n % 10) :: acc) hdivpos hdivlt
      rw [renderNatAux, if_neg hsmall, this,
        Nat.digits_def' (b := 10) (by norm_num) hn]
      simp

theorem renderNat_mem {n : Nat} {c : Char} (hc : c ∈ renderNat n) :
    ∃ d, d < 10 ∧ c = digitChar d := by
  rcases Nat.eq_zero_or_pos n with h0 | hpos
  · subst h0
    simp only [renderNat, renderNatAux] at hc
    simp only [show (0 : Nat) < 10 by norm_num, if_true, List.mem_singleton] at hc
    exact ⟨0, by norm_num, hc⟩
  · rw [renderNat, renderNatAux_eq_digits (n + 1) n [] hpos (Nat.lt_succ_self n)] at hc
    simp only [List.append_nil, List.mem_map, List.mem_reverse] at hc
    obtain ⟨d, hd, rfl⟩ := hc
    exact ⟨d, Nat.digits_lt_base (by norm_num) hd, rfl⟩

theorem renderNat_ne_nil (n : Nat) : renderNat n ≠ [] := by
  rcases Nat.eq_zero_or_pos n with h0 | hpos
  · subst h0; simp [renderNat, renderNatAux]
  · rw [renderNat, renderNatAux_eq_digits (n + 1) n [] hpos (Nat.lt_succ_self n)]
    simp [Nat.digits_ne_nil_iff_ne_zero, Nat.pos_iff_ne_zero.mp hpos]

theorem mapM_charDigit_map (ds : List Nat) (h : ∀ d ∈ ds, d < 10) :
    (ds.map digitChar).mapM charDigit = some ds := by
  induction ds with
  | nil => rfl
  | cons d ds ih =>
    rw [List.map_cons, List.mapM_cons, charDigit_digitChar (h d (List.mem_cons_self d ds)),
      ih (fun x hx => h x (List.mem_cons_of_mem d hx))]
    rfl

theorem parseDigits_renderNat (n : Nat) : parseDigits (renderNat n) = some n := by
  rcases Nat.eq_zero_or_pos n with h0 | hpos
  · subst h0; rfl
  · rw [renderNat, renderNatAux_eq_digits (n + 1) n [] hpos (Nat.lt_succ_self n),
      List.append_nil]
    have hne : (Nat.digits 10 n).reverse.map digitChar ≠ [] := by
      simp [Nat.digits_ne_nil_iff_ne_zero, Nat.pos_iff_ne_zero.mp hpos]
    obtain ⟨c, cs, hcons⟩ := List.exists_cons_of_ne_nil hne
    rw [hcons, parseDigits, ← hcons,
      mapM_charDigit_map _ (fun d hd =>
        Nat.digits_lt_base (by norm_num) (List.mem_reverse.mp hd))]
    simp [pyDigitsVal_eq_ofDigits, Nat.ofDigits_digits]

theorem renderNat_no_space {n : Nat} {c : Char} (hc : c ∈ renderNat n) :
    pyIsSpace c = false := by
  obtain ⟨d, hd, rfl⟩ := renderNat_mem hc
  exact (digitChar_not_special hd).1

theorem renderInt_no_space {n : Int} {c : Char} (hc : c ∈ renderInt n) :
    pyIsSpace c = false := by
  cases n with
  | ofNat m => exact renderNat_no_space hc
  | negSucc m =>
    rw [show renderInt (Int.negSucc m) = '-' :: renderNat (m + 1) from rfl,
      List.mem_cons] at hc
    rcases hc with rfl | hc
    · rfl
    · exact renderNat_no_space hc

theorem dropWhile_eq_self_of_forall {p : Char → Bool} {l : PyStr}
    (h : ∀ c ∈ l, p c = false) : l.dropWhile p = l := by
  cases l with
  | nil => rfl
  | cons c cs => simp [List.dropWhile_cons, h c (List.mem_cons_self c cs)]

theorem rstrip_eq_self_of_forall {l : PyStr} (h : ∀ c ∈ l, pyIsSpace c = false) :
    rstrip l = l := by
  rw [rstrip, dropWhile_eq_self_of_forall (fun c hc => h c (List.mem_reverse.mp hc)),
    List.reverse_reverse]

theorem pyInt_space_renderInt (n : Int) : pyInt (' ' :: renderInt n) = some n := by
  have hdrop : (' ' :: renderInt n).dropWhile pyIsSpace = renderInt n := by
    rw [List.dropWhile_cons]
    simp only [show pyIsSpace ' ' = true from rfl, if_true]
    exact dropWhile_eq_self_of_forall (fun c hc => renderInt_no_space hc)
  have hstrip : rstrip ((' ' :: renderInt n).dropWhile pyIsSpace) = renderInt n := by
    rw [hdrop]; exact rstrip_eq_self_of_forall (fun c hc => renderInt_no_space hc)
  cases n with
  | ofNat m =>
    obtain ⟨c, cs, hcons⟩ := List.exists_cons_of_ne_nil (renderNat_ne_nil m)
    have hcmem : c ∈ renderNat m := by rw [hcons]; exact List.mem_cons_self c cs
    obtain ⟨d, hd, rfl⟩ := renderNat_mem hcmem
    rw [pyInt]
    simp only [hstrip]
    rw [show renderInt (Int.ofNat m) = renderNat m from rfl, hcons]
    simp only [List.headD_cons, List.tail_cons]
    rw [if_neg (by exact_mod_cast (digitChar_not_special hd).2.1),
      if_neg (by exact_mod_cast (digitChar_not_special hd).2.2.1), ← hcons,
      parseDigits_renderNat]
    rfl
  | negSucc m =>
    rw [pyInt]
    simp only [hstrip]
    rw [show renderInt (Int.negSucc m) = '-' :: renderNat (m + 1) from rfl]
    simp only [List.headD_cons, List.tail_cons, if_pos rfl]
    rw [parseDigits_renderNat]
    simp [Int.negSucc_eq]

theorem newline_not_mem_header (n : Int) :
    '\n' ∉ FIRST_LINE_TEXT ++ ' ' :: renderInt n := by
  intro hmem
  rcases List.mem_append.mp hmem with h | h
  · revert h; decide
  · rw [List.mem_cons] at h
    rcases h with h | h
    · exact absurd h (by decide)
    · cases (renderInt_no_space h : pyIsSpace '\n' = false)

theorem isPrefixOf_append (l r : PyStr) : l.isPrefixOf (l ++ r) = true := by
  rw [List.isPrefixOf_iff_prefix]
  exact List.prefix_append l r

/-- The round-trip lemma for the source-record framing: decoding an
encoded record recovers the source text and first line exactly. -/
theorem extract_encode (s : PyStr) (n : Int) :
    extract_first_line (encode_func_code s n) = some (s, n) := by
  have hassoc : encode_func_code s n =
      (FIRST_LINE_TEXT ++ ' ' :: renderInt n) ++ '\n' :: s := by
    simp [encode_func_code]
  have hpre : FIRST_LINE_TEXT.isPrefixOf (encode_func_code s n) = true := by
    rw [show encode_func_code s n =
        FIRST_LINE_TEXT ++ (' ' :: renderInt n ++ '\n' :: s) by simp [encode_func_code]]
    exact isPrefixOf_append _ _
  have hsplit : (encode_func_code s n).splitOn '\n' =
      (FIRST_LINE_TEXT ++ ' ' :: renderInt n) :: s.splitOn '\n' := by
    rw [hassoc]
    rw [List.splitOn, List.splitOn,
      List.splitOnP_first _ _ (fun x hx => by
        simp only [beq_iff_eq]
        intro hxeq; exact newline_not_mem_header n (hxeq ▸ hx)) '\n' (by simp) s]
  rw [extract_first_line, if_pos hpre, hsplit]
  simp only [List.headD_cons, List.tail_cons]
  rw [List.drop_left' (by rfl), pyInt_space_renderInt]
  simp [List.intercalate_splitOn]

/-- Embedding of the Python file readlines method: split the text after
every newline, keeping the newline on each line; a final fragment with no
newline is a line of its own. -/
def readlinesAux : PyStr → PyStr → List PyStr
  | [], acc => if acc.isEmpty then [] else [acc.reverse]
  | c :: rest, acc =>
    if c = '\n' then (acc.reverse ++ ['\n']) :: readlinesAux rest []
    else readlinesAux rest (c :: acc)

/-- Embedding of the Python file readlines method. -/
def readlines (s : PyStr) : List PyStr := readlinesAux s []

/-- Embedding of Python list slicing l[a:b] with unit step: negative
indices count from the end and both bounds are clamped. -/
def pySlice {α : Type} (l : List α) (a b : Int) : List α :=
  let n : Int := l.length
  let lo := (if a < 0 then max 0 (n + a) else min a n).toNat
  let hi := (if b < 0 then max 0 (n + b) else min b n).toNat
  (l.take hi).drop lo

/-- The current function as observed by get_func_code of func_inspect:
its extracted source text, the file it was defined in when known, and the
1-based first line of its definition, -1 when unknown. -/
structure FuncInfo where
  func_code : PyStr
  source_file : Option PyStr
  first_line : Int
deriving DecidableEq

/-- The ambient inputs of the identity check of Store._is_same_func: the
current function and the contents of the source files on disk, read by
the collision heuristic. -/
structure StoreCtx where
  info : FuncInfo
  src_files : List (PyStr × PyStr)
deriving DecidableEq

/-- The diagnostics the identity check can emit through the warning
channel (both are JobLibCollisionWarning instances in the source). -/
inductive StoreEvent where
  | ambiguousIdentity
  | suspectedCollision
deriving DecidableEq

/-- The warning of src/joblib/store.py lines 119 to 129: when both the
persisted and the current first line are the unknown sentinel -1 and the
texts differ, name collisions cannot be detected. -/
def ambiguousCheck (ctx : StoreCtx) (old_first_line : Int) : List StoreEvent :=
  if old_first_line = ctx.info.first_line ∧ ctx.info.first_line = -1 then
    [.ambiguousIdentity]
  else []

/-- The suspected-collision heuristic of src/joblib/store.py lines 131 to
149: when the first lines differ and the source file is known and present,
read as many lines as the current code has, starting at the old first
line, and warn when that text still matches the persisted code after
stripping trailing whitespace. -/
def collisionCheck (ctx : StoreCtx) (old_func_code : PyStr)
    (old_first_line : Int) : List StoreEvent :=
  if old_first_line ≠ ctx.info.first_line then
    match ctx.info.source_file with
    | none => []
    | some sf =>
      match ctx.src_files.lookup sf with
      | none => []
      | some content =>
        let num_lines : Int := (ctx.info.func_code.splitOn '\n').length
        let on_disk := (pySlice (readlines content)
          (old_first_line - 1) (old_first_line - 1 + num_lines - 1)).flatten
        if rstrip on_disk = rstrip old_func_code then [.suspectedCollision]
        else []
  else []

/-- The per-function cache directory of the filesystem backend: the
contents of the func_code.py file when present, and the set of per-hash
output directories present. -/
structure DiskState where
  funcCodeFile : Option PyStr
  outputDirs : List PyStr
deriving DecidableEq

/-- DiskStore._save_func_code (src/joblib/store.py lines 220 to 227):
overwrite func_code.py with the framed record. -/
def DiskState.save_func_code (st : DiskState) (func_code : PyStr)
    (first_line : Int) : DiskState :=
  { st with funcCodeFile := some (encode_func_code func_code first_line) }

/-- DiskStore.clear (src/joblib/store.py lines 195 to 205): remove the
whole per-function directory tree, recreate it, and write a fresh source
record for the current code. -/
def Disk.clear (ctx : StoreCtx) (_st : DiskState) : DiskState :=
  DiskState.save_func_code ⟨none, []⟩ ctx.info.func_code ctx.info.first_line

/-- Store._is_same_func as run by the filesystem backend
(src/joblib/store.py lines 94 to 154 with _get_func_code of lines 207 to
218): missing func_code.py means no record, so the current record is
written and the check misses; otherwise the decoded record is compared
with the current text; on mismatch the diagnostics run and the namespace
is cleared.  The result is none when decoding the persisted record raises
ValueError, which DiskStore._get_func_code does not catch. -/
def Disk.is_same_func (ctx : StoreCtx) (st : DiskState) :
    Option (Bool × DiskState × List StoreEvent) :=
  match st.funcCodeFile with
  | none =>
    some (false, st.save_func_code ctx.info.func_code ctx.info.first_line, [])
  | some raw =>
    match extract_first_line raw with
    | none => none
    | some (old_code, old_fl) =>
      if old_code = ctx.info.func_code then some (true, st, [])
      else some (false, Disk.clear ctx st,
        ambiguousCheck ctx old_fl ++ collisionCheck ctx old_code old_fl)

/-- DiskStore.exists (src/joblib/store.py lines 185 to 190): the identity
check runs first, with its writes, and the result is its verdict
conjoined with the presence of the output directory for the derived
argument hash. -/
def Disk.exists (ctx : StoreCtx) (st : DiskState) (argument_hash : PyStr) :
    Option (Bool × DiskState) :=
  (Disk.is_same_func ctx st).map
    (fun r => (r.1 && r.2.1.outputDirs.contains argument_hash, r.2.1))

/-- DiskStore.delete (src/joblib/store.py lines 181 to 183): remove the
per-hash output directory tree, ignoring errors, so absence is not an
error. -/
def Disk.delete (st : DiskState) (argument_hash : PyStr) : DiskState :=
  { st with outputDirs := st.outputDirs.filter (fun d => !(d == argument_hash)) }

/-- The exception kinds distinguished by the error handling of the
filesystem backend. -/
inductive PyExc where
  | osError
  | ioError
  | valueError
  | otherError
deriving DecidableEq

/-- The first exception raised by a sequence of statements, none when all
succeed. -/
def first_exc : List (Option PyExc) → Option PyExc
  | [] => none
  | none :: rest => first_exc rest
  | some e :: _ => some e

/-- DiskStore._persist_output (src/joblib/store.py lines 254 to 262): the
directory creation and the payload dump run inside one try block whose
except clause catches OSError only, so an OSError from either statement
is swallowed and every other exception propagates.  The outcomes of the
two underlying calls are parameters, none meaning success. -/
def persist_output (mkdirp_res dump_res : Option PyExc) : Except PyExc Unit :=
  match first_exc [mkdirp_res, dump_res] with
  | none => .ok ()
  | some e => if e = .osError then .ok () else .error e

/-- DiskStore._persist_input (src/joblib/store.py lines 264 to 283): the
summary write runs inside a bare except clause, so every failure is
swallowed. -/
def persist_input (_mkdirp_res _json_res : Option PyExc) : Except PyExc Unit :=
  .ok ()

/-- The exception flow of DiskStore.set (src/joblib/store.py lines 176 to
179): persist the payload, then the argument summary. -/
def Disk.set (mkdirp_res dump_res summary_mkdirp_res summary_json_res :
    Option PyExc) : Except PyExc Unit :=
  match persist_output mkdirp_res dump_res with
  | .error e => .error e
  | .ok _ => persist_input summary_mkdirp_res summary_json_res

/-- The per-function collection of the remote document-store backend: a
flat namespace of versioned blobs, keyed by filename, latest version
first. -/
structure MongoState where
  blobs : List (PyStr × List PyStr)
deriving DecidableEq

/-- GridFS get_last_version: the latest version of the named blob, none
when no version is stored (the NoFile error). -/
def MongoState.getLastVersion (st : MongoState) (f : PyStr) : Option PyStr :=
  (st.blobs.lookup f).bind List.head?

/-- GridFS put: append a new version of the named blob. -/
def MongoState.putBlob (st : MongoState) (f content : PyStr) : MongoState :=
  match st.blobs.lookup f with
  | none => ⟨st.blobs ++ [(f, [content])]⟩
  | some vs =>
    ⟨st.blobs.map (fun kv => if kv.1 == f then (kv.1, content :: vs) else kv)⟩

/-- GridFS exists on a filename query: some version of the blob is
stored. -/
def MongoState.existsFile (st : MongoState) (f : PyStr) : Bool :=
  (st.blobs.lookup f).isSome

/-- GridFS delete of the id returned by get_last_version: remove the
latest version only; none models the NoFile error raised by
get_last_version when the blob is absent. -/
def MongoState.deleteLast (st : MongoState) (f : PyStr) : Option MongoState :=
  match st.blobs.lookup f with
  | none => none
  | some vs =>
    some (if vs.length ≤ 1 then ⟨st.blobs.filter (fun kv => !(kv.1 == f))⟩
      else ⟨st.blobs.map (fun kv => if kv.1 == f then (kv.1, vs.tail) else kv)⟩)

/-- The slash-joined blob keys of the remote backend, as built throughout
src/joblib/store.py lines 341 to 443. -/
def mongoFilename (module name arg_hash leaf : PyStr) : PyStr :=
  module ++ '/' :: name ++ '/' :: arg_hash ++ '/' :: leaf

/-- The key of the persisted source record blob of the remote backend. -/
def mongoFuncCodeName (module name : PyStr) : PyStr :=
  module ++ '/' :: name ++ '/' :: ("func_code.py".data)

/-- MongoDBStore._get_func_code (src/joblib/store.py lines 421 to 433):
read the latest version of the record blob and decode it; the bare except
clause turns both a missing blob and a decode failure into no record. -/
def Mongo.get_func_code (st : MongoState) (module name : PyStr) :
    Option (PyStr × Int) :=
  (st.getLastVersion (mongoFuncCodeName module name)).bind extract_first_line

/-- MongoDBStore._save_func_code (src/joblib/store.py lines 435 to 443):
put a new version of the framed record blob. -/
def Mongo.save_func_code (st : MongoState) (module name : PyStr)
    (func_code : PyStr) (first_line : Int) : MongoState :=
  st.putBlob (mongoFuncCodeName module name)
    (encode_func_code func_code first_line)

/-- MongoDBStore.clear (src/joblib/store.py lines 403 to 411): drop the
files and chunks collections of this function, then write a fresh source
record for the current code. -/
def Mongo.clear (ctx : StoreCtx) (_st : MongoState) (module name : PyStr) :
    MongoState :=
  Mongo.save_func_code ⟨[]⟩ module name ctx.info.func_code ctx.info.first_line

/-- Store._is_same_func as run by the remote backend
(src/joblib/store.py lines 94 to 154 with the backend methods above). -/
def Mongo.is_same_func (ctx : StoreCtx) (st : MongoState) (module name : PyStr) :
    Bool × MongoState × List StoreEvent :=
  match Mongo.get_func_code st module name with
  | none =>
    (false,
      Mongo.save_func_code st module name ctx.info.func_code ctx.info.first_line,
      [])
  | some (old_code, old_fl) =>
    if old_code = ctx.info.func_code then (true, st, [])
    else (false, Mongo.clear ctx st module name,
      ambiguousCheck ctx old_fl ++ collisionCheck ctx old_code old_fl)

/-- MongoDBStore.exists (src/joblib/store.py lines 389 to 398): the
identity check runs first; the blob whose presence is then tested is the
input_args.json summary blob for the derived hash, not the payload. -/
def Mongo.exists (ctx : StoreCtx) (st : MongoState) (module name arg_hash : PyStr) :
    Bool × MongoState :=
  let r := Mongo.is_same_func ctx st module name
  (r.1 && r.2.1.existsFile
      (mongoFilename module name arg_hash ("input_args.json".data)),
    r.2.1)

/-- MongoDBStore.set (src/joblib/store.py lines 355 to 378): put a new
version of the payload blob, then, when the json module is available and
the put does not fail, a new version of the summary blob; summary
failures are swallowed by the bare except clause. -/
def Mongo.set (st : MongoState) (module name arg_hash payload : PyStr)
    (json_available summary_put_ok : Bool) (summary : PyStr) : MongoState :=
  let st1 := st.putBlob (mongoFilename module name arg_hash ("output.pkl".data))
    payload
  if json_available && summary_put_ok then
    st1.putBlob (mongoFilename module name arg_hash ("input_args.json".data))
      summary
  else st1

/-- MongoDBStore.delete (src/joblib/store.py lines 380 to 387): delete
the latest version of the payload blob, then of the summary blob; none
models the NoFile error get_last_version raises when a blob is absent. -/
def Mongo.delete (st : MongoState) (module name arg_hash : PyStr) :
    Option MongoState :=
  (st.deleteLast (mongoFilename module name arg_hash ("output.pkl".data))).bind
    (fun st1 =>
      st1.deleteLast (mongoFilename module name arg_hash ("input_args.json".data)))

/-- The names bound at the top level of src/joblib/store.py: the imports
of lines 1 to 22 and the definitions of lines 24 to 451. -/
def store_module_toplevel : List String :=
  ["os", "time", "warnings", "functools", "shutil", "tempfile", "json",
   "get_func_code", "get_func_name", "filter_args", "mkdirp", "rm_subdirs",
   "numpy_pickle", "Logger", "format_time", "hash",
   "FIRST_LINE_TEXT", "extract_first_line", "JobLibCollisionWarning",
   "Store", "DiskStore", "MongoDBStore", "schemes", "store_from_scheme"]

/-- Resolution of a from-import against the store module, as in
src/joblib/memory.py line 42. -/
def from_store_import (name : String) : Except String String :=
  if store_module_toplevel.contains name then .ok name
  else .error "ImportError"

/-- Importing src/joblib/memory.py runs its top-level imports, among them
the SimpleStore import of line 42. -/
def import_memory_module : Except String Unit :=
  (from_store_import "SimpleStore").map (fun _ => ())

/-- Constructing a MemorizedFunc (src/joblib/memory.py lines 94 to 159)
first needs its module imported; with a non-tuple cache scheme the
constructor then calls SimpleStore at line 153. -/
def memorized_func_init (scheme_is_tuple : Bool) : Except String String :=
  match import_memory_module with
  | .error e => .error e
  | .ok _ =>
    if scheme_is_tuple then .ok "cache built from the scheme descriptor"
    else from_store_import "SimpleStore"

/-- Memory.clear (src/joblib/memory.py lines 364 to 375) calls
SimpleStore.reset_all, again after the module import. -/
def memory_clear : Except String Unit :=
  import_memory_module.bind
    (fun _ => (from_store_import "SimpleStore").map (fun _ => ()))

/-- The instance attributes a MongoDBStore has after construction: those
assigned by Store.__init__ (src/joblib/store.py lines 46 to 68) and by
MongoDBStore.__init__ (lines 302 to 329), for a plain function argument. -/
def mongo_instance_attributes : List String :=
  ["func", "_verbose", "mmap_mode", "compress", "timestamp", "ignore",
   "dbname", "db", "fs", "files", "chunks"]

/-- Python attribute lookup on a MongoDBStore instance. -/
def mongo_getattr (name : String) : Except String String :=
  if mongo_instance_attributes.contains name then .ok name
  else .error "AttributeError"

/-- MongoDBStore.reset_all (src/joblib/store.py lines 400 to 401): its
single statement starts by reading the mongo attribute of self; the drop
of the database only runs when that lookup succeeds. -/
def mongo_reset_all : Except String String :=
  (mongo_getattr "mongo").map (fun a => a)

/-- Modelled from the spec: the canonical argument binding of section 4.2
(func_inspect.filter_args is not under src/).  Positional arguments are
matched to the declared parameters in order; each remaining parameter
takes its keyword argument; none models a binding failure. -/
def bindArgs {V : Type} (params : List String) (args : List V)
    (kwargs : List (String × V)) : Option (List (String × V)) :=
  if params.length < args.length then none
  else ((params.drop args.length).mapM
         (fun p => (kwargs.lookup p).map (Prod.mk p))).map
       (fun kwbound => (params.take args.length).zip args ++ kwbound)

/-- Modelled from the spec: filter_args of section 4.2 drops every bound
parameter whose name appears in the ignore list. -/
def filter_args {V : Type} (params ignore : List String) (args : List V)
    (kwargs : List (String × V)) : Option (List (String × V)) :=
  (bindArgs params args kwargs).map
    (List.filter (fun pv => !(ignore.contains pv.1)))

/-- The derived argument hash of DiskStore.get_output_dir and
MongoDBStore._argument_hash (src/joblib/store.py lines 240 to 252 and 413
to 419): any hash function applied to the filtered argument mapping and
the memory-map coercion flag. -/
def argument_hash {V H : Type} (hashFn : List (String × V) → Bool → H)
    (params ignore : List String) (args : List V) (kwargs : List (String × V))
    (coerce_mmap : Bool) : Option H :=
  (filter_args params ignore args kwargs).map (fun m => hashFn m coerce_mmap)

theorem mapM_lookup_keys {V : Type} (kwargs : List (String × V)) :
    ∀ (ps : List String) (kwb : List (String × V)),
      ps.mapM (fun p => (kwargs.lookup p).map (Prod.mk p)) = some kwb →
      kwb.map Prod.fst = ps := by
  intro ps
  induction ps with
  | nil =>
    intro kwb h
    simp only [List.mapM_nil, Option.pure_def, Option.some.injEq] at h
    simp [← h]
  | cons p ps ih =>
    intro kwb h
    rw [List.mapM_cons] at h
    cases hl : kwargs.lookup p with
    | none => rw [hl] at h; simp at h
    | some v =>
      rw [hl] at h
      cases hm : ps.mapM (fun q => (kwargs.lookup q).map (Prod.mk q)) with
      | none => rw [hm] at h; simp at h
      | some bs =>
        rw [hm] at h
        have h' : (p, v) :: bs = kwb := by simpa using h
        subst h'
        simp [ih bs hm]

theorem bindArgs_keys {V : Type} {params : List String} {args : List V}
    {kwargs : List (String × V)} {b : List (String × V)}
    (h : bindArgs params args kwargs = some b) : b.map Prod.fst = params := by
  rw [bindArgs] at h
  split at h
  · cases h
  · rename_i hlen
    obtain ⟨kwb, hkwb, rfl⟩ := Option.map_eq_some'.mp h
    rw [List.map_append, mapM_lookup_keys kwargs _ _ hkwb,
      List.map_fst_zip _ _ (by simp [Nat.le_of_not_lt hlen]),
      List.take_append_drop]

theorem lookup_none_of_not_mem {V : Type} :
    ∀ (l : List (String × V)) (k : String), k ∉ l.map Prod.fst →
      l.lookup k = none := by
  intro l
  induction l with
  | nil => intro k _; rfl
  | cons a l ih =>
    intro k hk
    obtain ⟨a1, a2⟩ := a
    simp only [List.map_cons, List.mem_cons, not_or] at hk
    rw [List.lookup_cons]
    simp only [beq_false_of_ne hk.1]
    exact ih k hk.2

theorem assoc_ext {V : Type} :
    ∀ (l₁ l₂ : List (String × V)),
      l₁.map Prod.fst = l₂.map Prod.fst →
      (l₁.map Prod.fst).Nodup →
      (∀ k ∈ l₁.map Prod.fst, l₁.lookup k = l₂.lookup k) →
      l₁ = l₂ := by
  intro l₁
  induction l₁ with
  | nil =>
    intro l₂ hk _ _
    cases l₂ with
    | nil => rfl
    | cons b l => simp at hk
  | cons a l ih =>
    intro l₂ hk hnd hlu
    cases l₂ with
    | nil => simp at hk
    | cons b l₂ =>
      obtain ⟨a1, a2⟩ := a
      obtain ⟨b1, b2⟩ := b
      simp only [List.map_cons, List.cons.injEq] at hk
      obtain ⟨hab, htl⟩ := hk
      subst hab
      have hhead : a2 = b2 := by
        simpa [List.lookup_cons] using hlu a1 (by simp)
      subst hhead
      simp only [List.map_cons, List.nodup_cons] at hnd
      have htail : ∀ k ∈ l.map Prod.fst, l.lookup k = l₂.lookup k := by
        intro k hkmem
        have hkne : k ≠ a1 := fun he => hnd.1 (he ▸ hkmem)
        have hcons := hlu k (by simp [hkmem])
        simp only [List.lookup_cons, beq_false_of_ne hkne] at hcons
        exact hcons
      rw [ih l₂ htl hnd.2 htail]

theorem lookup_filter_key {V : Type} (Q : String → Bool) :
    ∀ (l : List (String × V)) (k : String), Q k = true →
      (l.filter (fun pv => Q pv.1)).lookup k = l.lookup k := by
  intro l
  induction l with
  | nil => intro k _; rfl
  | cons a l ih =>
    intro k hQ
    obtain ⟨a1, a2⟩ := a
    by_cases hka : k = a1
    · subst hka
      rw [List.filter_cons, if_pos (by simpa using hQ)]
      simp [List.lookup_cons]
    · cases hQa : Q a1 with
      | true =>
        rw [List.filter_cons, if_pos (by simpa using hQa)]
        simp only [List.lookup_cons, beq_false_of_ne hka]
        exact ih k hQ
      | false =>
        rw [List.filter_cons, if_neg (by simp [hQa])]
        simp only [List.lookup_cons, beq_false_of_ne hka]
        exact ih k hQ

theorem map_fst_filter_key {V : Type} (Q : String → Bool) :
    ∀ l : List (String × V),
      (l.filter (fun pv => Q pv.1)).map Prod.fst = (l.map Prod.fst).filter Q := by
  intro l
  induction l with
  | nil => rfl
  | cons a l ih =>
    by_cases h : Q a.1 = true <;>
      simp [List.filter_cons, h, ih]

/-- Claim C1: the very first time a namespace of a function is observed in
a store (no persisted source record exists), the existence check returns
false and writes the current source record as the baseline, even if a
cache entry for the derived argument hash is already physically present
in the store. -/
theorem claim_C1_first_observation (ctx : StoreCtx) (st : DiskState)
    (arg_hash : PyStr) (hrec : st.funcCodeFile = none) :
    Disk.exists ctx st arg_hash =
      some (false,
        ⟨some (encode_func_code ctx.info.func_code ctx.info.first_line),
          st.outputDirs⟩) := by
  simp [Disk.exists, Disk.is_same_func, hrec, DiskState.save_func_code]

/-- Claim C1 witness: a concrete first observation in which the cache
entry directory for the queried hash is already present. -/
theorem claim_C1_witness :
    Disk.exists ⟨⟨"code".data, none, 1⟩, []⟩ ⟨none, ["h1".data]⟩ "h1".data =
      some (false, ⟨some (encode_func_code "code".data 1), ["h1".data]⟩) :=
  claim_C1_first_observation ⟨⟨"code".data, none, 1⟩, []⟩ ⟨none, ["h1".data]⟩
    "h1".data rfl

/-- Claim C2: with a persisted source record in the namespace, the
identity check reports unchanged and leaves the store unmodified when the
persisted source text equals the current one exactly; on any mismatch it
clears the entire namespace, writes a fresh record for the current
source, and reports changed, after which the existence check is false for
every argument hash. -/
theorem claim_C2_source_change (ctx : StoreCtx) (st : DiskState)
    (old_code : PyStr) (old_fl : Int)
    (hrec : st.funcCodeFile = some (encode_func_code old_code old_fl)) :
    (old_code = ctx.info.func_code →
      Disk.is_same_func ctx st = some (true, st, [])) ∧
    (old_code ≠ ctx.info.func_code →
      Disk.is_same_func ctx st =
        some (false,
          ⟨some (encode_func_code ctx.info.func_code ctx.info.first_line), []⟩,
          ambiguousCheck ctx old_fl ++ collisionCheck ctx old_code old_fl) ∧
      ∀ arg_hash,
        Disk.exists ctx
          ⟨some (encode_func_code ctx.info.func_code ctx.info.first_line), []⟩
          arg_hash =
          some (false,
            ⟨some (encode_func_code ctx.info.func_code ctx.info.first_line),
              []⟩)) := by
  constructor
  · intro heq
    simp [Disk.is_same_func, hrec, extract_encode, heq]
  · intro hne
    constructor
    · simp [Disk.is_same_func, hrec, extract_encode, hne, Disk.clear,
        DiskState.save_func_code]
    · intro arg_hash
      simp [Disk.exists, Disk.is_same_func, extract_encode]

/-- Claim C2 witness: a concrete run of both branches, with an entry
present before the mismatch. -/
theorem claim_C2_witness :
    (("a".data : PyStr) = ("b".data : PyStr) →
      Disk.is_same_func ⟨⟨"b".data, none, 2⟩, []⟩
        ⟨some (encode_func_code "a".data 1), ["h".data]⟩ =
        some (true, ⟨some (encode_func_code "a".data 1), ["h".data]⟩, [])) ∧
    (("a".data : PyStr) ≠ ("b".data : PyStr) →
      Disk.is_same_func ⟨⟨"b".data, none, 2⟩, []⟩
        ⟨some (encode_func_code "a".data 1), ["h".data]⟩ =
        some (false, ⟨some (encode_func_code "b".data 2), []⟩,
          ambiguousCheck ⟨⟨"b".data, none, 2⟩, []⟩ 1 ++
            collisionCheck ⟨⟨"b".data, none, 2⟩, []⟩ "a".data 1) ∧
      ∀ arg_hash,
        Disk.exists ⟨⟨"b".data, none, 2⟩, []⟩
          ⟨some (encode_func_code "b".data 2), []⟩ arg_hash =
          some (false, ⟨some (encode_func_code "b".data 2), []⟩)) :=
  claim_C2_source_change ⟨⟨"b".data, none, 2⟩, []⟩
    ⟨some (encode_func_code "a".data 1), ["h".data]⟩ "a".data 1 rfl

/-- Claim C3 counterexample: the claim says a payload persistence failure
during set always propagates, but the except clause of
DiskStore._persist_output spans the payload dump, so a dump failing with
OSError is swallowed and set succeeds. -/
theorem claim_C3_counterexample :
    Disk.set none (some .osError) none none = .ok () := rfl

/-- Claim C3 as amended: a payload write failure propagates out of set
unless it is an OSError, which the except clause that tolerates
directory-creation races also swallows; a failure while persisting the
argument summary never affects the result of set. -/
theorem claim_C3_error_propagation (e : PyExc) (he : e ≠ .osError) :
    (∀ s1 s2, Disk.set none (some e) s1 s2 = .error e) ∧
    (∀ mkdirp_res dump_res s1 s2 s1' s2',
      Disk.set mkdirp_res dump_res s1 s2 =
        Disk.set mkdirp_res dump_res s1' s2') := by
  constructor
  · intro s1 s2
    simp [Disk.set, persist_output, first_exc, he]
  · intro m d s1 s2 s1' s2'
    cases h : persist_output m d <;> simp [Disk.set, h, persist_input]

/-- Claim C3 witness: an IOError from the payload dump propagates, and
the result of set does not depend on the summary outcome. -/
theorem claim_C3_witness :
    Disk.set none (some .ioError) none none = .error .ioError ∧
    Disk.set none none (some .otherError) (some .otherError) =
      Disk.set none none none none :=
  ⟨(claim_C3_error_propagation .ioError (by decide)).1 none none,
    (claim_C3_error_propagation .ioError (by decide)).2 none none
      (some .otherError) (some .otherError) none none⟩

/-- Claim C4: the claim states that exists on every backend is true only
when the identity check is unchanged and the payload cache entry is
present, the advisory argument summary never affecting the result.  On
the remote backend the code tests the input_args.json summary blob
instead: after a set that stored the payload but no summary (json module
unavailable), the payload blob is present and the identity check passes,
yet exists is false; storing the summary as well flips exists to true
with the same payload. -/
theorem claim_C4_mongo_exists_summary_dependence :
    (Mongo.set (Mongo.save_func_code ⟨[]⟩ "m".data "f".data "src".data 1)
        "m".data "f".data "h".data "payload".data false true "s".data).existsFile
      (mongoFilename "m".data "f".data "h".data ("output.pkl".data)) = true ∧
    (Mongo.is_same_func ⟨⟨"src".data, none, 1⟩, []⟩
        (Mongo.set (Mongo.save_func_code ⟨[]⟩ "m".data "f".data "src".data 1)
          "m".data "f".data "h".data "payload".data false true "s".data)
        "m".data "f".data).1 = true ∧
    (Mongo.exists ⟨⟨"src".data, none, 1⟩, []⟩
        (Mongo.set (Mongo.save_func_code ⟨[]⟩ "m".data "f".data "src".data 1)
          "m".data "f".data "h".data "payload".data false true "s".data)
        "m".data "f".data "h".data).1 = false ∧
    (Mongo.exists ⟨⟨"src".data, none, 1⟩, []⟩
        (Mongo.set (Mongo.save_func_code ⟨[]⟩ "m".data "f".data "src".data 1)
          "m".data "f".data "h".data "payload".data true true "s".data)
        "m".data "f".data "h".data).1 = true := by
  refine ⟨by decide, by decide, by decide, by decide⟩

/-- Claim C5 counterexample: the claim says delete is idempotent on every
backend, but MongoDBStore.delete calls get_last_version, which raises
NoFile when no entry exists for the hash. -/
theorem claim_C5_counterexample :
    Mongo.delete ⟨[]⟩ "m".data "f".data "h".data = none := rfl

/-- Claim C5 as amended: the filesystem backend delete removes the cache
entry for the derived hash and is idempotent (absence is not an error),
while the remote backend delete raises when no payload blob exists for
the hash. -/
theorem claim_C5_delete (st : DiskState) (arg_hash : PyStr)
    (mst : MongoState) (module name mhash : PyStr)
    (habs : mst.blobs.lookup
      (mongoFilename module name mhash ("output.pkl".data)) = none) :
    (Disk.delete st arg_hash).outputDirs.contains arg_hash = false ∧
    (st.outputDirs.contains arg_hash = false → Disk.delete st arg_hash = st) ∧
    Mongo.delete mst module name mhash = none := by
  refine ⟨?_, ?_, ?_⟩
  · simp only [Disk.delete]
    rw [List.contains_eq_any_beq]
    simp only [List.any_eq_false]
    intro d hd
    have hne : ¬d = arg_hash := by
      simpa using (List.mem_filter.mp hd).2
    simpa using fun he => hne he.symm
  · intro hnm
    simp only [Disk.delete]
    have : st.outputDirs.filter (fun d => !(d == arg_hash)) = st.outputDirs := by
      apply List.filter_eq_self.mpr
      intro d hd
      have hne : d ≠ arg_hash := by
        intro he
        subst he
        rw [List.contains_eq_any_beq] at hnm
        simp only [List.any_eq_false] at hnm
        simpa using hnm d hd
      simpa using hne
    rw [this]
  · simp [Mongo.delete, MongoState.deleteLast, habs]

/-- Claim C5 witness: a concrete disk state with and without the entry,
and a concrete remote state with no payload blob. -/
theorem claim_C5_witness :
    (Disk.delete ⟨none, ["h".data]⟩ "g".data).outputDirs.contains "g".data =
      false ∧
    ((⟨none, ["h".data]⟩ : DiskState).outputDirs.contains "g".data = false →
      Disk.delete ⟨none, ["h".data]⟩ "g".data = ⟨none, ["h".data]⟩) ∧
    Mongo.delete ⟨[(("x".data : PyStr), ["v".data])]⟩ "m".data "f".data
      "h".data = none :=
  claim_C5_delete ⟨none, ["h".data]⟩ "g".data
    ⟨[(("x".data : PyStr), ["v".data])]⟩ "m".data "f".data "h".data (by decide)

/-- Claim C6: encoding a source record as the sentinel header line, a
newline and the verbatim source text and then decoding it recovers the
text and first line exactly; decoding any text that does not start with
the sentinel yields first line -1 and the text unchanged. -/
theorem claim_C6_roundtrip (s t : PyStr) (n : Int)
    (ht : FIRST_LINE_TEXT.isPrefixOf t = false) :
    extract_first_line (encode_func_code s n) = some (s, n) ∧
    extract_first_line t = some (t, -1) :=
  ⟨extract_encode s n, by simp [extract_first_line, ht]⟩

/-- Claim C6 witness: a concrete multi-line source with a negative first
line, and a concrete non-sentinel text. -/
theorem claim_C6_witness :
    extract_first_line (encode_func_code "ab\ncd".data (-3)) =
      some ("ab\ncd".data, -3) ∧
    extract_first_line "plain".data = some ("plain".data, -1) :=
  claim_C6_roundtrip "ab\ncd".data "plain".data (-3) (by decide)

/-- Claim C9: the memory module imports the name SimpleStore from the
store module, but the store module binds no such name at top level, so
importing the memory module fails, and with it every construction of a
MemorizedFunc (for any cache scheme shape, in particular non-tuple ones)
and every call of Memory.clear. -/
theorem claim_C9_simple_store_missing :
    store_module_toplevel.contains "SimpleStore" = false ∧
    import_memory_module = .error "ImportError" ∧
    (∀ scheme_is_tuple,
      memorized_func_init scheme_is_tuple = .error "ImportError") ∧
    memory_clear = .error "ImportError" := by
  refine ⟨rfl, rfl, ?_, rfl⟩
  intro b
  cases b <;> rfl

/-- Claim C10: MongoDBStore.reset_all reads the attribute mongo of self,
which neither constructor ever assigns, so every call raises
AttributeError before any database drop can run. -/
theorem claim_C10_reset_all_attribute_error :
    mongo_instance_attributes.contains "mongo" = false ∧
    mongo_reset_all = .error "AttributeError" :=
  ⟨rfl, rfl⟩

/-- Claim C7: for every function signature, ignore list and pair of calls
whose effective (non-ignored) argument values are identical — regardless
of the values bound to ignored parameters and of keyword insertion
order — the derived argument hash is identical, and the hash is a
deterministic function of the filtered argument mapping and the
memory-map coercion flag. -/
theorem claim_C7_hash_determinism {V H : Type}
    (hashFn : List (String × V) → Bool → H) (params ignore : List String)
    (coerce_mmap : Bool) (hnd : params.Nodup)
    (args1 args2 : List V) (kw1 kw2 : List (String × V))
    (b1 b2 : List (String × V))
    (h1 : bindArgs params args1 kw1 = some b1)
    (h2 : bindArgs params args2 kw2 = some b2)
    (heff : ∀ p ∈ params, ignore.contains p = false →
      b1.lookup p = b2.lookup p) :
    argument_hash hashFn params ignore args1 kw1 coerce_mmap =
      argument_hash hashFn params ignore args2 kw2 coerce_mmap ∧
    argument_hash hashFn params ignore args1 kw1 coerce_mmap =
      (filter_args params ignore args1 kw1).map
        (fun m => hashFn m coerce_mmap) := by
  have hk1 := bindArgs_keys h1
  have hk2 := bindArgs_keys h2
  have hm1 : (b1.filter (fun pv => !(ignore.contains pv.1))).map Prod.fst =
      params.filter (fun s => !(ignore.contains s)) := by
    have h0 := map_fst_filter_key (fun s => !(ignore.contains s)) b1
    rw [hk1] at h0
    exact h0
  have hm2 : (b2.filter (fun pv => !(ignore.contains pv.1))).map Prod.fst =
      params.filter (fun s => !(ignore.contains s)) := by
    have h0 := map_fst_filter_key (fun s => !(ignore.contains s)) b2
    rw [hk2] at h0
    exact h0
  have hfeq : b1.filter (fun pv => !(ignore.contains pv.1)) =
      b2.filter (fun pv => !(ignore.contains pv.1)) := by
    apply assoc_ext
    · rw [hm1, hm2]
    · rw [hm1]
      exact hnd.filter _
    · intro k hkmem
      rw [hm1] at hkmem
      obtain ⟨hkp, hkq⟩ := List.mem_filter.mp hkmem
      have e1 := lookup_filter_key (fun s => !(ignore.contains s)) b1 k hkq
      have e2 := lookup_filter_key (fun s => !(ignore.contains s)) b2 k hkq
      exact e1.trans ((heff k hkp (by simpa using hkq)).trans e2.symm)
  constructor
  · unfold argument_hash filter_args
    rw [h1, h2]
    simp only [Option.map_some']
    rw [hfeq]
  · rfl

/-- Claim C7 witness: one call passes a positionally, b by keyword, and
binds 9 to the ignored c; the other passes everything by keyword in a
different insertion order and binds 7 to c; the hashes agree for the pair
hash function. -/
theorem claim_C7_witness :
    argument_hash (fun m c => (m, c)) ["a", "b", "c"] ["c"]
      [1] [("b", 2), ("c", 9)] true =
      argument_hash (fun m c => (m, c)) ["a", "b", "c"] ["c"]
        ([] : List Nat) [("c", 7), ("a", 1), ("b", 2)] true ∧
    argument_hash (fun m c => (m, c)) ["a", "b", "c"] ["c"]
      [1] [("b", 2), ("c", 9)] true =
      (filter_args ["a", "b", "c"] ["c"] [1] [("b", 2), ("c", 9)]).map
        (fun m => (m, true)) :=
  claim_C7_hash_determinism (fun m c => (m, c)) ["a", "b", "c"] ["c"] true
    (by decide) [1] [] [("b", 2), ("c", 9)] [("c", 7), ("a", 1), ("b", 2)]
    [("a", 1), ("b", 2), ("c", 9)] [("a", 1), ("b", 2), ("c", 7)]
    (by decide) (by decide) (by decide)

/-- Claim C8: when the persisted and current first lines differ, the
source file is known and present, and the text in the source file at the
old first line still equals the persisted record, the identity check
emits the suspected-collision diagnostic and still proceeds to invalidate
the namespace, reporting changed. -/
theorem claim_C8_collision_warning (ctx : StoreCtx) (st : DiskState)
    (old_code : PyStr) (old_fl : Int) (sf content : PyStr)
    (hrec : st.funcCodeFile = some (encode_func_code old_code old_fl))
    (hne : old_code ≠ ctx.info.func_code)
    (hfl : old_fl ≠ ctx.info.first_line)
    (hsf : ctx.info.source_file = some sf)
    (hfile : ctx.src_files.lookup sf = some content)
    (hmatch : (pySlice (readlines content) (old_fl - 1)
        (old_fl - 1 + ((ctx.info.func_code.splitOn '\n').length : Int) - 1)).flatten
      = old_code) :
    Disk.is_same_func ctx st =
      some (false,
        ⟨some (encode_func_code ctx.info.func_code ctx.info.first_line), []⟩,
        [.suspectedCollision]) := by
  have hamb : ambiguousCheck ctx old_fl = [] := by
    simp [ambiguousCheck, hfl]
  have hcoll : collisionCheck ctx old_code old_fl = [.suspectedCollision] := by
    simp [collisionCheck, hfl, hsf, hfile, hmatch]
  simp [Disk.is_same_func, hrec, extract_encode, hne, Disk.clear,
    DiskState.save_func_code, hamb, hcoll]

/-- Claim C8 witness: the persisted record says the function started at
line 1 of a.py, the current one starts at line 5, and the first two lines
of a.py still hold the persisted text, so the suspected-collision warning
fires and the namespace is invalidated. -/
theorem claim_C8_witness :
    Disk.is_same_func
      ⟨⟨"def f():\n    return 2\n".data, some "a.py".data, 5⟩,
        [("a.py".data, "def f():\n    return 1\nrest".data)]⟩
      ⟨some (encode_func_code "def f():\n    return 1\n".data 1), ["h1".data]⟩ =
      some (false,
        ⟨some (encode_func_code "def f():\n    return 2\n".data 5), []⟩,
        [.suspectedCollision]) :=
  claim_C8_collision_warning
    ⟨⟨"def f():\n    return 2\n".data, some "a.py".data, 5⟩,
      [("a.py".data, "def f():\n    return 1\nrest".data)]⟩
    ⟨some (encode_func_code "def f():\n    return 1\n".data 1), ["h1".data]⟩
    "def f():\n    return 1\n".data 1 "a.py".data
    "def f():\n    return 1\nrest".data
    rfl (by decide) (by decide) rfl (by decide) (by decide)
